import Mathlib

set_option maxHeartbeats 1000000

/-!
Verification of the console-thingy core: the word-wrap engine (src/wrap.rs),
the scrollback buffer (src/scrollback.rs) and the input state / console handle
operations (src/lib.rs), shallowly embedded over `List Char` with explicit
UTF-8 byte offsets mirroring Rust's byte-indexed strings.
-/

/-- Total UTF-8 byte length of a string, as Rust `str::len`. -/
def utf8Len (s : List Char) : Nat := (s.map Char.utf8Size).sum

/-- Rust `str::char_indices`, starting at byte offset `offset`: each character
paired with its starting UTF-8 byte offset. -/
def charIndicesFrom (offset : Nat) : List Char → List (Nat × Char)
  | [] => []
  | c :: rest => (offset, c) :: charIndicesFrom (offset + c.utf8Size) rest

/-- Rust `str::char_indices`. -/
def charIndices (s : List Char) : List (Nat × Char) := charIndicesFrom 0 s

/-- Rust `char::is_ascii_punctuation` (U+0021..=U+002F, U+003A..=U+0040,
U+005B..=U+0060, U+007B..=U+007E). -/
def is_ascii_punctuation (c : Char) : Bool :=
  (0x21 ≤ c.toNat && c.toNat ≤ 0x2F) || (0x3A ≤ c.toNat && c.toNat ≤ 0x40) ||
  (0x5B ≤ c.toNat && c.toNat ≤ 0x60) || (0x7B ≤ c.toNat && c.toNat ≤ 0x7E)

/-- Rust `char::is_ascii_control` (U+0000..=U+001F and U+007F). -/
def is_ascii_control (c : Char) : Bool :=
  c.toNat ≤ 0x1F || c.toNat = 0x7F

/-- `is_break` from src/wrap.rs: whitespace, ASCII punctuation or control. -/
def is_break (ch : Char) : Bool :=
  is_ascii_punctuation ch || ch = ' ' || ch = '\t' || is_ascii_control ch

/-- The loop-local state of `Wrapped::wrap` in src/wrap.rs: the emitted byte
ranges so far plus the scan cursors. -/
structure WrapState where
  offsets : List (Nat × Nat)
  line_start : Nat
  is_after_breakable : Bool
  last_word_start : Nat
  word_char_length : Nat
  line_length : Nat
deriving Repr, DecidableEq

/-- One iteration body of the `while let Some((index, ch)) = chars.next()` loop
in `Wrapped::wrap`, before the width check: the `if ch == '\n' || ch == '\r'`
branch closes the line at `index` and restarts after it; otherwise the running
line length grows and the word-tracking state is updated. -/
def wrapConsume (st : WrapState) (index : Nat) (ch : Char) : WrapState :=
  if ch = '\n' ∨ ch = '\r' then
    { st with offsets := st.offsets ++ [(st.line_start, index)]
              line_start := index + 1
              last_word_start := 0
              word_char_length := 0
              line_length := 0
              is_after_breakable := true }
  else
    let st := { st with line_length := st.line_length + 1 }
    if is_break ch then
      { st with is_after_breakable := true, word_char_length := 0 }
    else if st.is_after_breakable then
      { st with is_after_breakable := false
                last_word_start := index
                word_char_length := 1 }
    else
      { st with word_char_length := st.word_char_length + 1 }

/-- The trailing width check of the loop body: `if line_length == chars_wide &&
chars.peek().is_some()` closes the line at `last_word_start`. `hasMore` is
`chars.peek().is_some()`, i.e. whether characters remain after the current one. -/
def wrapCheckWidth (chars_wide : Nat) (hasMore : Bool) (st : WrapState) : WrapState :=
  if st.line_length = chars_wide ∧ hasMore then
    { st with offsets := st.offsets ++ [(st.line_start, st.last_word_start)]
              line_start := st.last_word_start
              line_length := st.word_char_length }
  else st

/-- The whole scan loop of `Wrapped::wrap` over the remaining
`(index, char)` pairs. -/
def wrapGo (chars_wide : Nat) : List (Nat × Char) → WrapState → WrapState
  | [], st => st
  | (index, ch) :: rest, st =>
    wrapGo chars_wide rest (wrapCheckWidth chars_wide (!rest.isEmpty) (wrapConsume st index ch))

/-- `Wrapped::wrap` in src/wrap.rs, as a function from the string and width to
the cached byte ranges: run the scan from the initial state (`line_start = 0`,
`is_after_breakable = true`, everything else zero), then emit the trailing
partial line if `line_length > 0`, else one empty line if nothing was emitted. -/
def wrapOffsets (s : List Char) (chars_wide : Nat) : List (Nat × Nat) :=
  let st := wrapGo chars_wide (charIndices s) ⟨[], 0, true, 0, 0, 0⟩
  if 0 < st.line_length then st.offsets ++ [(st.line_start, utf8Len s)]
  else if st.offsets.isEmpty then [(0, 0)]
  else st.offsets

example : wrapOffsets ("hello world".toList) 10 = [(0, 6), (6, 11)] := by decide
example : wrapOffsets ("hello world".toList) 11 = [(0, 11)] := by decide
example : wrapOffsets ("aaaa".toList) 2 = [(0, 0), (0, 4)] := by decide
example : wrapOffsets ("\n x".toList) 1 = [(0, 0), (1, 0), (0, 3)] := by decide

/-- The UTF-8 byte offsets that are character boundaries of `s` (including `0`
and `utf8Len s`), as Rust `str::is_char_boundary`. -/
def byteBoundaries : List Char → List Nat
  | [] => [0]
  | c :: rest => 0 :: (byteBoundaries rest).map (fun b => b + c.utf8Size)

def is_char_boundary (s : List Char) (i : Nat) : Bool := (byteBoundaries s).contains i

/-- The characters of `s` whose starting byte offset (counted from `offset`)
lies in `[a, b)`. -/
def sliceFrom (offset a b : Nat) : List Char → List Char
  | [] => []
  | c :: rest =>
    if a ≤ offset ∧ offset < b then c :: sliceFrom (offset + c.utf8Size) a b rest
    else sliceFrom (offset + c.utf8Size) a b rest

/-- Rust string range indexing `&s[a..b]` as used by `Lines::next` and
`Lines::next_back`: `some` slice when `a <= b`, both ends in bounds and on
character boundaries; `none` models the Rust panic otherwise. -/
def sliceRange (s : List Char) (a b : Nat) : Option (List Char) :=
  if a ≤ b ∧ is_char_boundary s a ∧ is_char_boundary s b then some (sliceFrom 0 a b s)
  else none

example : sliceRange ("hello world".toList) 0 6 = some ("hello ".toList) := by decide
example : sliceRange ("\n x".toList) 1 0 = none := by decide

/-- The `Wrapped` struct of src/wrap.rs: a string, the width it was last
wrapped at, the cached line spans and the dirty flag. -/
structure Wrapped where
  string : List Char
  wrapped_width : Nat
  offsets : List (Nat × Nat)
  dirty : Bool
deriving Repr, DecidableEq

/-- `Wrapped::wrap` as a state transformer: clears and recomputes the cached
offsets for `chars_wide`, resets `dirty` and records the width. -/
def Wrapped.wrap (w : Wrapped) (chars_wide : Nat) : Wrapped :=
  { w with offsets := wrapOffsets w.string chars_wide
           dirty := false
           wrapped_width := chars_wide }

/-- `Wrapped::lines(width)`: re-wrap when `dirty || wrapped_width != width`,
else reuse the cache. The returned `Lines` view borrows `string` and
`offsets` of the resulting state. -/
def Wrapped.lines (w : Wrapped) (width : Nat) : Wrapped :=
  if w.dirty = true ∨ w.wrapped_width ≠ width then w.wrap width else w

/-- `impl From<String> for Wrapped`: freshly created values are dirty with an
empty cache and width 0. -/
def Wrapped.from_string (s : List Char) : Wrapped :=
  { string := s, wrapped_width := 0, offsets := [], dirty := true }

/-- `impl DerefMut for Wrapped`: any mutable access to the underlying string
sets the dirty flag; `f` is the mutation performed through the reference. -/
def Wrapped.deref_mut (w : Wrapped) (f : List Char → List Char) : Wrapped :=
  { w with string := f w.string, dirty := true }

/-- The `Lines` iterator of src/wrap.rs: a borrowed source string and the
remaining slice of cached spans. -/
structure Lines where
  source : List Char
  wrapped : List (Nat × Nat)
deriving Repr, DecidableEq

/-- `Lines::next`: take the first remaining span and slice the source with it
(`none` when exhausted; the item is itself an `Option` because slicing an
invalid cached range panics in Rust). -/
def Lines.next (l : Lines) : Option (Option (List Char) × Lines) :=
  match l.wrapped with
  | [] => none
  | r :: rest => some (sliceRange l.source r.1 r.2, ⟨l.source, rest⟩)

/-- `Lines::next_back`: take the last remaining span and slice the source
with it. -/
def Lines.next_back (l : Lines) : Option (Option (List Char) × Lines) :=
  match l.wrapped.getLast? with
  | none => none
  | some r => some (sliceRange l.source r.1 r.2, ⟨l.source, l.wrapped.dropLast⟩)

/-- Collect every item yielded by repeated `Lines::next` over the spans:
each step slices the head span and continues with the rest. -/
def collectForward (source : List Char) : List (Nat × Nat) → List (Option (List Char))
  | [] => []
  | r :: rest => sliceRange source r.1 r.2 :: collectForward source rest

/-- Collect every item yielded by repeated `Lines::next_back` over the spans:
each step slices the last span and continues with `dropLast`, exactly as
`next_back` shrinks `self.wrapped`. -/
def collectBackward (source : List Char) (spans : List (Nat × Nat)) :
    List (Option (List Char)) :=
  if h : spans = [] then []
  else sliceRange source (spans.getLast h).1 (spans.getLast h).2 ::
    collectBackward source spans.dropLast
termination_by spans.length
decreasing_by
  have : 0 < spans.length := List.length_pos.mpr h
  simp [List.length_dropLast]
  omega


/-- The `InputMode` enum of src/lib.rs: `Text` (plain), `Suggesting` with the
remaining suggestion text, or `Secure`. -/
inductive InputMode where
  | Text : InputMode
  | Suggesting : List Char → InputMode
  | Secure : InputMode
deriving Repr, DecidableEq

/-- The `Input` struct of src/lib.rs: the edit buffer and the mode. (The
buffer is a `Wrapped` in the source; only its string content is relevant to
the input operations modelled here, which mutate it through `DerefMut`.) -/
structure Input where
  buffer : List Char
  mode : InputMode
deriving Repr, DecidableEq

/-- The `ConsoleEvent` enum of src/lib.rs. -/
inductive ConsoleEvent where
  | InputBufferChanged : ConsoleEvent
  | Input : ConsoleEvent
deriving Repr, DecidableEq

/-- `ConsoleHandle::input(ch)` from src/lib.rs, as a transition on the locked
`Input` state paired with the events sent: backspace (U+0008) pops the buffer
and clears an active suggestion; CR/LF only signal submission; tab is ignored;
every other character is pushed onto the buffer, and an active suggestion
loses its first character when it starts with `ch` (and is left untouched
otherwise). -/
def ConsoleHandle.input (st : Input) (ch : Char) : Input × List ConsoleEvent :=
  if ch = Char.ofNat 0x8 then
    ({ buffer := st.buffer.dropLast
       mode := match st.mode with
         | InputMode.Suggesting _ => InputMode.Suggesting []
         | m => m }, [ConsoleEvent.InputBufferChanged])
  else if ch = Char.ofNat 0xD ∨ ch = Char.ofNat 0xA then
    (st, [ConsoleEvent.Input])
  else if ch = Char.ofNat 0x9 then
    (st, [])
  else
    ({ buffer := st.buffer ++ [ch]
       mode := match st.mode with
         | InputMode.Suggesting s =>
           if s.head? = some ch then InputMode.Suggesting s.tail
           else InputMode.Suggesting s
         | m => m }, [ConsoleEvent.InputBufferChanged])

/-- Rust `char::is_control` (the Unicode `Cc` category: U+0000..=U+001F and
U+007F..=U+009F), used to state which characters the spec calls
"non-control". -/
def is_control_char (c : Char) : Bool :=
  c.toNat ≤ 0x1F || (0x7F ≤ c.toNat && c.toNat ≤ 0x9F)

/-- `ConsoleHandle::complete_suggestion` from src/lib.rs: in `Suggesting`
mode with a non-empty suggestion, append the whole suggestion to the buffer,
clear it and return `true`; otherwise return `false` and change nothing. -/
def ConsoleHandle.complete_suggestion (st : Input) : Input × Bool :=
  match st.mode with
  | InputMode.Suggesting s =>
    if s.isEmpty then (st, false)
    else ({ buffer := st.buffer ++ s, mode := InputMode.Suggesting [] }, true)
  | _ => (st, false)

/-- `usize::MAX` on a 64-bit target. -/
def usize_max : Nat := 2 ^ 64 - 1

/-- `isize::MIN` on a 64-bit target. -/
def isize_min : Int := -(2 ^ 63)

/-- `isize::MAX` on a 64-bit target. -/
def isize_max : Int := 2 ^ 63 - 1

/-- Rust `usize::saturating_add`. (`usize::saturating_sub` is `Nat`
truncated subtraction.) -/
def saturating_add (a b : Nat) : Nat := min (a + b) usize_max

/-- `ConsoleHandle::scroll(lines)` from src/lib.rs, as a function of the
current `scroll`, the `maximum_scroll` bound and the `isize` delta: positive
deltas saturating-add and clamp with `.min(maximum_scroll)`; `isize::MIN`
subtracts `isize::MAX as usize + 1 = 2^63` saturating at zero; other
non-positive deltas subtract their negation saturating at zero. -/
def ConsoleHandle.scroll (scroll maximum_scroll : Nat) (lines : Int) : Nat :=
  if 0 < lines then min (saturating_add scroll lines.toNat) maximum_scroll
  else if lines = isize_min then scroll - 2 ^ 63
  else scroll - (-lines).toNat

/-- The `Scrollback` struct of src/scrollback.rs: entries newest-first, the
scroll offset, its recomputed bound, and the current wrap width. -/
structure Scrollback where
  events : List Wrapped
  scroll : Nat
  maximum_scroll : Nat
  columns : Nat
deriving Repr, DecidableEq

/-- Modelled from the spec: `Wrapped::rewrap(width)` is called by
`State::push` (src/lib.rs) and the GUI render/command paths (src/gui.rs) but
is absent from src/wrap.rs. Per the spec's recomputation policy (§4.1,
"wrapping is lazy and memoized — if the cached width matches the requested
width and the string has not been mutated since the last wrap, the cached
spans are reused; otherwise the full scan reruns"), it performs exactly the
cache check of `Wrapped::lines`, leaving the spans in `offsets`. The no-arg
`Wrapped::lines()` that follows it in the callers then iterates the cached
`offsets`, so `lines().len()` is `offsets.length`. -/
def Wrapped.rewrap (w : Wrapped) (width : Nat) : Wrapped := w.lines width

/-- `State::push(line)` from src/lib.rs: build a fresh (dirty) `Wrapped` from
the line; when `scroll != 0`, rewrap it at the current `columns`, add its
line count to `scroll`; finally `push_front` the entry. -/
def State.push (sb : Scrollback) (line : List Char) : Scrollback :=
  let wrapped := Wrapped.from_string line
  if sb.scroll ≠ 0 then
    let wrapped := wrapped.rewrap sb.columns
    { sb with scroll := sb.scroll + wrapped.offsets.length
              events := wrapped :: sb.events }
  else
    { sb with events := wrapped :: sb.events }

/-- The cache-consistency invariant of `Wrapped`: either the value is dirty,
or the cached offsets are exactly what a full scan at the cached width
produces. Every `Wrapped` reachable through the API satisfies it: fresh
values are dirty, `lines`/`wrap` establish it, `deref_mut` re-dirties. -/
def Wrapped.cache_ok (w : Wrapped) : Prop :=
  w.dirty = true ∨ w.offsets = wrapOffsets w.string w.wrapped_width

/-! ## Helper lemmas -/

theorem collectForward_append (source : List Char) (xs : List (Nat × Nat)) (r : Nat × Nat) :
    collectForward source (xs ++ [r]) =
      collectForward source xs ++ [sliceRange source r.1 r.2] := by
  induction xs with
  | nil => simp [collectForward]
  | cons a as ih => simp [collectForward, ih]

theorem collectBackward_nil (source : List Char) : collectBackward source [] = [] := by
  rw [collectBackward]
  simp

theorem collectBackward_concat (source : List Char) (xs : List (Nat × Nat)) (r : Nat × Nat) :
    collectBackward source (xs ++ [r]) =
      sliceRange source r.1 r.2 :: collectBackward source xs := by
  rw [collectBackward]
  have h : xs ++ [r] ≠ [] := by simp
  rw [dif_neg (by simp : ¬(xs ++ [r] = []))]
  simp [List.getLast_append, List.dropLast_concat]

theorem collectBackward_eq_reverse (source : List Char) (spans : List (Nat × Nat)) :
    collectBackward source spans = (collectForward source spans).reverse := by
  induction spans using List.reverseRecOn with
  | nil => simp [collectBackward_nil, collectForward]
  | append_singleton xs r ih =>
    rw [collectBackward_concat, collectForward_append, ih]
    simp

/-! ## Claim theorems -/

/-- Claim C1: the claim states that for every width `w >= 1` and string `s`
the wrap produces ordered, non-overlapping, gap-free byte ranges whose texts
(with the consumed break characters re-inserted) reconstruct `s`. The code
violates this: wrapping the string `"\n x"` at width 1 caches the ranges
`[(0,0), (1,0), (0,3)]` — the range `1..0` is inverted (after the newline,
`last_word_start` is reset to `0` instead of the new line start), so slicing
it panics and the produced line texts cannot reconstruct the string. -/
theorem c1_wrap_does_not_reconstruct :
    wrapOffsets ("\n x".toList) 1 = [(0, 0), (1, 0), (0, 3)] ∧
    sliceRange ("\n x".toList) 1 0 = none ∧
    (collectForward ("\n x".toList) (wrapOffsets ("\n x".toList) 1)).contains none = true := by
  decide

/-- Claim C2: the claim states every produced line renders to at most `w`
columns, with a word starting at the line start hard-broken exactly at `w`.
The code violates this: wrapping `"aaaa"` at width 2 produces the ranges
`[(0,0), (0,4)]`, i.e. an empty line followed by the whole 4-column word —
no hard break at 2 ever happens, because the width check pushes
`line_start..last_word_start` (an empty range here) and leaves
`line_length = word_char_length = 2`, after which `line_length` can never
equal `chars_wide` again. -/
theorem c2_long_word_not_hard_broken :
    wrapOffsets ("aaaa".toList) 2 = [(0, 0), (0, 4)] ∧
    sliceRange ("aaaa".toList) 0 4 = some ("aaaa".toList) ∧
    ("aaaa".toList).length = 4 ∧ ¬(4 ≤ 2) := by
  decide

/-- Claim C4: the claim states every cached byte range satisfies
`start <= end`, `end <= len`, both on character boundaries, so iteration
never panics when slicing. The code violates it: for the string `"\n x"` at
width 1 the cached spans contain the inverted range `(1, 0)`, and forward
iteration (`Lines::next`) reaches a slice `&source[1..0]` that panics
(modelled by the `none` item). -/
theorem c4_cached_range_inverted :
    ((wrapOffsets ("\n x".toList) 1).any fun r => decide (r.2 < r.1)) = true ∧
    Lines.next ⟨"\n x".toList, List.drop 1 (wrapOffsets ("\n x".toList) 1)⟩ =
      some (none, ⟨"\n x".toList, [(0, 3)]⟩) := by
  decide

/-- Claim C3 counterexample: the claim states that typing a non-matching
non-control character clears an active suggestion entirely. It does not: in
`ConsoleHandle::input` (and identically in `Gui::receive_character`) the only
suggestion update in the default arm is `if suggestion.starts_with(ch) {
suggestion.remove(0); }` with no else branch, so feeding 'a' against the
active suggestion "xy" leaves the suggestion "xy", not empty. -/
theorem c3_nonmatching_char_keeps_suggestion :
    (ConsoleHandle.input ⟨[], InputMode.Suggesting ("xy".toList)⟩ 'a').1.mode =
      InputMode.Suggesting ("xy".toList) ∧
    (ConsoleHandle.input ⟨[], InputMode.Suggesting ("xy".toList)⟩ 'a').1.buffer = ['a'] ∧
    is_control_char 'a' = false ∧
    InputMode.Suggesting ("xy".toList) ≠ InputMode.Suggesting [] := by
  decide

/-- Claim C3 as amended: with an active non-empty suggestion, feeding a
non-control character appends it to the buffer; if it equals the suggestion's
first character the suggestion loses exactly that leading character, and
otherwise the suggestion is left unchanged (not cleared). -/
theorem c3_amended_input_suggestion (st : Input) (s : List Char) (ch : Char)
    (hm : st.mode = InputMode.Suggesting s) (hs : s ≠ [])
    (hc : is_control_char ch = false) :
    (ConsoleHandle.input st ch).1.buffer = st.buffer ++ [ch] ∧
    (s.head? = some ch →
      (ConsoleHandle.input st ch).1.mode = InputMode.Suggesting s.tail) ∧
    (¬s.head? = some ch →
      (ConsoleHandle.input st ch).1.mode = InputMode.Suggesting s) := by
  have h8 : ¬ch = Char.ofNat 0x8 := by
    intro h; subst h; revert hc; decide
  have hd : ¬(ch = Char.ofNat 0xD ∨ ch = Char.ofNat 0xA) := by
    rintro (h | h) <;> (subst h; revert hc; decide)
  have h9 : ¬ch = Char.ofNat 0x9 := by
    intro h; subst h; revert hc; decide
  unfold ConsoleHandle.input
  rw [if_neg h8, if_neg hd, if_neg h9, hm]
  refine ⟨rfl, ?_, ?_⟩
  · intro hh; simp [hh]
  · intro hh; simp [hh]

/-- Claim C3 amended witness: feeding the matching head character 'c' against
suggestion "cd" trims it to "d"; feeding the non-matching 'z' leaves it
unchanged; both append the typed character to the buffer. -/
theorem c3_amended_witness :
    (ConsoleHandle.input ⟨['a'], InputMode.Suggesting ("cd".toList)⟩ 'c').1.buffer =
      ['a'] ++ ['c'] ∧
    (ConsoleHandle.input ⟨['a'], InputMode.Suggesting ("cd".toList)⟩ 'c').1.mode =
      InputMode.Suggesting (("cd".toList).tail) ∧
    (ConsoleHandle.input ⟨['a'], InputMode.Suggesting ("cd".toList)⟩ 'z').1.mode =
      InputMode.Suggesting ("cd".toList) :=
  ⟨(c3_amended_input_suggestion ⟨['a'], InputMode.Suggesting ("cd".toList)⟩
      ("cd".toList) 'c' rfl (by decide) (by decide)).1,
   (c3_amended_input_suggestion ⟨['a'], InputMode.Suggesting ("cd".toList)⟩
      ("cd".toList) 'c' rfl (by decide) (by decide)).2.1 (by decide),
   (c3_amended_input_suggestion ⟨['a'], InputMode.Suggesting ("cd".toList)⟩
      ("cd".toList) 'z' rfl (by decide) (by decide)).2.2 (by decide)⟩

/-- Claim C5: for every scrollback state with `scroll <= maximum_scroll` and
every `isize` delta (including `isize::MIN` and `isize::MAX`), the scroll
operation leaves the offset in `[0, maximum_scroll]`: positive deltas
saturating-add and clamp at the bound, non-positive deltas saturating-sub
toward zero, never wrapping. (The lower bound `0 <= scroll` is inherent in
the `Nat` model of `usize`, matching Rust's unsigned type.) -/
theorem c5_scroll_stays_in_bounds (s m : Nat) (l : Int)
    (h1 : s ≤ m) (h2 : isize_min ≤ l) (h3 : l ≤ isize_max) :
    ConsoleHandle.scroll s m l ≤ m := by
  unfold ConsoleHandle.scroll
  split
  · exact min_le_right _ _
  · split
    · exact le_trans (Nat.sub_le _ _) h1
    · exact le_trans (Nat.sub_le _ _) h1

/-- Claim C5 witness: scrolling by `isize::MIN` from `scroll = 5`,
`maximum_scroll = 10` stays within bounds (it saturates to zero). -/
theorem c5_scroll_witness :
    ConsoleHandle.scroll 5 10 isize_min ≤ 10 ∧
    ConsoleHandle.scroll 5 10 isize_min = 0 ∧
    ConsoleHandle.scroll 5 10 isize_max = 10 :=
  ⟨c5_scroll_stays_in_bounds 5 10 isize_min (by decide) (by decide) (by decide),
   by decide, by decide⟩

/-- Claim C6: `State::push` inserts the new entry at the newest (front)
position; when `scroll != 0` before the push, `scroll` grows by exactly the
new entry's wrapped line count at the current column width, and when
`scroll = 0` it stays zero. -/
theorem c6_push_front_and_scroll (sb : Scrollback) (line : List Char) :
    ((State.push sb line).events.head?.map Wrapped.string = some line) ∧
    ((State.push sb line).events.tail = sb.events) ∧
    (sb.scroll = 0 → (State.push sb line).scroll = 0) ∧
    (sb.scroll ≠ 0 →
      (State.push sb line).scroll =
        sb.scroll + (wrapOffsets line sb.columns).length) := by
  unfold State.push Wrapped.rewrap Wrapped.lines Wrapped.wrap Wrapped.from_string
  by_cases h : sb.scroll = 0
  · simp [h]
  · simp [h]

/-- Claim C6 witness: pushing "hello world" with `scroll = 3` and
`columns = 10` raises `scroll` by the entry's 2 wrapped lines; pushing with
`scroll = 0` leaves it at zero; the previous entries become the tail. -/
theorem c6_push_witness :
    (State.push ⟨[], 3, 10, 10⟩ ("hello world".toList)).scroll =
      3 + (wrapOffsets ("hello world".toList) 10).length ∧
    (wrapOffsets ("hello world".toList) 10).length = 2 ∧
    (State.push ⟨[], 0, 10, 10⟩ ("hello world".toList)).scroll = 0 ∧
    (State.push ⟨[], 3, 10, 10⟩ ("hello world".toList)).events.tail = [] :=
  ⟨(c6_push_front_and_scroll ⟨[], 3, 10, 10⟩ ("hello world".toList)).2.2.2 (by decide),
   by decide,
   (c6_push_front_and_scroll ⟨[], 0, 10, 10⟩ ("hello world".toList)).2.2.1 rfl,
   (c6_push_front_and_scroll ⟨[], 3, 10, 10⟩ ("hello world".toList)).2.1⟩

/-- Claim C7: `complete_suggestion` returns `false` and leaves the state
unmodified when the mode is not `Suggesting` or the suggestion is empty;
with a non-empty suggestion it appends the whole remaining suggestion to the
buffer, clears the suggestion, and returns `true`, in one step. -/
theorem c7_complete_suggestion_spec (st : Input) :
    (∀ s, st.mode = InputMode.Suggesting s → s ≠ [] →
      ConsoleHandle.complete_suggestion st =
        ({ buffer := st.buffer ++ s, mode := InputMode.Suggesting [] }, true)) ∧
    (∀ s, st.mode = InputMode.Suggesting s → s = [] →
      ConsoleHandle.complete_suggestion st = (st, false)) ∧
    (st.mode = InputMode.Text → ConsoleHandle.complete_suggestion st = (st, false)) ∧
    (st.mode = InputMode.Secure → ConsoleHandle.complete_suggestion st = (st, false)) := by
  unfold ConsoleHandle.complete_suggestion
  refine ⟨?_, ?_, ?_, ?_⟩
  · intro s hm hs
    rw [hm]
    cases s with
    | nil => exact absurd rfl hs
    | cons a as => simp [List.isEmpty]
  · intro s hm hs
    subst hs
    rw [hm]
    simp [List.isEmpty]
  · intro hm; rw [hm]
  · intro hm; rw [hm]

/-- Claim C7 witness: completing suggestion "cd" over buffer "ab" yields
buffer "abcd", an empty suggestion and `true`; an empty suggestion or plain
mode yields `false` with the state unchanged. -/
theorem c7_complete_suggestion_witness :
    ConsoleHandle.complete_suggestion ⟨"ab".toList, InputMode.Suggesting ("cd".toList)⟩ =
      ({ buffer := "ab".toList ++ "cd".toList, mode := InputMode.Suggesting [] }, true) ∧
    ConsoleHandle.complete_suggestion ⟨"ab".toList, InputMode.Suggesting []⟩ =
      (⟨"ab".toList, InputMode.Suggesting []⟩, false) ∧
    ConsoleHandle.complete_suggestion ⟨"ab".toList, InputMode.Text⟩ =
      (⟨"ab".toList, InputMode.Text⟩, false) :=
  ⟨(c7_complete_suggestion_spec ⟨"ab".toList, InputMode.Suggesting ("cd".toList)⟩).1
      ("cd".toList) rfl (by decide),
   (c7_complete_suggestion_spec ⟨"ab".toList, InputMode.Suggesting []⟩).2.1 [] rfl rfl,
   (c7_complete_suggestion_spec ⟨"ab".toList, InputMode.Text⟩).2.2.1 rfl⟩

/-- Claim C8: starting from any cache-consistent `Wrapped`, requesting the
lines at a width returns spans equal to a fresh full scan at that width;
requesting again at the unchanged width without mutation returns the
byte-identical cached state; and any mutation through `DerefMut` sets the
dirty flag, so the next request rescans the (mutated) string. -/
theorem c8_lines_memoization (w : Wrapped) (width : Nat) (h : w.cache_ok) :
    ((w.lines width).offsets = wrapOffsets w.string width) ∧
    ((w.lines width).lines width = w.lines width) ∧
    ((w.lines width).string = w.string) ∧
    (∀ f, ((w.lines width).deref_mut f).dirty = true) ∧
    (∀ f width2,
      (((w.lines width).deref_mut f).lines width2).offsets =
        wrapOffsets (f w.string) width2) := by
  by_cases hcond : w.dirty = true ∨ w.wrapped_width ≠ width
  · have hw : w.lines width = w.wrap width := by
      unfold Wrapped.lines
      rw [if_pos hcond]
    rw [hw]
    refine ⟨rfl, ?_, rfl, fun f => rfl, fun f width2 => ?_⟩
    · unfold Wrapped.lines
      rw [if_neg]
      simp [Wrapped.wrap]
    · simp [Wrapped.lines, Wrapped.deref_mut, Wrapped.wrap]
  · have hw : w.lines width = w := by
      unfold Wrapped.lines
      rw [if_neg hcond]
    push_neg at hcond
    obtain ⟨hdirty, hwidth⟩ := hcond
    have hoff : w.offsets = wrapOffsets w.string width := by
      rcases h with h | h
      · exact absurd h hdirty
      · rw [h, hwidth]
    rw [hw]
    refine ⟨hoff, ?_, rfl, fun f => rfl, fun f width2 => ?_⟩
    · unfold Wrapped.lines
      rw [if_neg]
      push_neg
      exact ⟨hdirty, hwidth⟩
    · simp [Wrapped.lines, Wrapped.deref_mut, Wrapped.wrap]

/-- Claim C8 witness: a fresh (dirty) `Wrapped` over "hello world" wrapped at
width 10 caches the spans of a full scan, and an immediately repeated request
at width 10 returns the identical state. -/
theorem c8_lines_witness :
    ((Wrapped.from_string ("hello world".toList)).lines 10).offsets =
      wrapOffsets ("hello world".toList) 10 ∧
    wrapOffsets ("hello world".toList) 10 = [(0, 6), (6, 11)] ∧
    ((Wrapped.from_string ("hello world".toList)).lines 10).lines 10 =
      (Wrapped.from_string ("hello world".toList)).lines 10 :=
  ⟨(c8_lines_memoization (Wrapped.from_string ("hello world".toList)) 10 (Or.inl rfl)).1,
   by decide,
   (c8_lines_memoization (Wrapped.from_string ("hello world".toList)) 10 (Or.inl rfl)).2.1⟩

/-- Claim C10: backward iteration over a wrapped line sequence yields exactly
the reverse of forward iteration over the same cached spans; and concretely,
"hello world" wrapped at 10 yields ["hello ", "world"], at 11 yields
["hello world"], and backward iteration of the width-10 result yields
["world", "hello "]. -/
theorem c10_reverse_iteration :
    (∀ (source : List Char) (spans : List (Nat × Nat)),
      collectBackward source spans = (collectForward source spans).reverse) ∧
    collectForward ("hello world".toList) (wrapOffsets ("hello world".toList) 10) =
      [some ("hello ".toList), some ("world".toList)] ∧
    collectForward ("hello world".toList) (wrapOffsets ("hello world".toList) 11) =
      [some ("hello world".toList)] ∧
    collectBackward ("hello world".toList) (wrapOffsets ("hello world".toList) 10) =
      [some ("world".toList), some ("hello ".toList)] := by
  refine ⟨collectBackward_eq_reverse, by decide, by decide, ?_⟩
  rw [collectBackward_eq_reverse]
  decide
